import Mathlib

/-!
Shallow embedding of `chrisling-dev/foodie-server`, restaurants service
(`src/restaurants/restaurants.service.ts`), together with the parts of its
environment that the service relies on: the keyword extractor
(`src/helpers/util.ts`, not present in the source tree, modelled from the
specification), the error helpers (`src/helpers/http-codes.ts`, likewise
modelled), and the repository/storage abstraction (TypeORM, an external
collaborator, modelled from the specification of the Catalog Store).
JavaScript objects `Record<string, number>` are modelled as association
lists `List (String × Int)`; the service operations keep keys distinct.
-/

namespace Foodie

/-- A word character in the tokenizer sense (JavaScript `\w`):
letters, digits, underscore. -/
def isWordChar (c : Char) : Bool := c.isAlphanum || c == '_'

/-- Group a character list into maximal runs of word characters, discarding
separator characters; the accumulator holds the current run, reversed. -/
def splitWordsAux : List Char → List Char → List (List Char)
  | [], acc => if acc.isEmpty then [] else [acc.reverse]
  | c :: cs, acc =>
    if isWordChar c then splitWordsAux cs (c :: acc)
    else if acc.isEmpty then splitWordsAux cs [] else acc.reverse :: splitWordsAux cs []

/-- Modelled from the spec: tokenization rule of the Keyword Extractor
(spec 4.1) — lower-case the text and split it on non-word boundaries into
tokens, discarding empty tokens.  The extractor lives in
`src/helpers/util.ts`, which is not under `src/`. -/
def tokenize (text : String) : List String :=
  (splitWordsAux (text.data.map Char.toLower) []).map (fun w => String.mk w)

/-- A keyword map: association list from normalized word to occurrence
count, the model of the JSON object `Record<string, number>`. -/
abbrev Keywords := List (String × Int)

/-- Does the keyword map contain the key `k`? -/
def hasKey (m : Keywords) (k : String) : Bool := m.any (fun p => p.1 == k)

/-- Add-mode step for one token: increment its count, inserting the key
with count 1 if absent (spec 4.1). -/
def incKey (m : Keywords) (t : String) : Keywords :=
  if hasKey m t then m.map (fun p => if p.1 = t then (p.1, p.2 + 1) else p)
  else m ++ [(t, 1)]

/-- Subtract-mode action on a single entry: entries with other keys are
untouched; an entry for the token is decremented, and dropped when the
resulting count is ≤ 0 (spec 4.1). -/
def decEntry (t : String) (p : String × Int) : Option (String × Int) :=
  if p.1 = t then (if p.2 - 1 ≤ 0 then none else some (p.1, p.2 - 1)) else some p

/-- Subtract-mode step for one token: decrement its count, deleting the key
entirely if the resulting count is ≤ 0; a token absent from the map leaves
the map unaffected (spec 4.1).  On maps with distinct keys this per-entry
formulation is exactly the spec wording. -/
def decKey (m : Keywords) (t : String) : Keywords := m.filterMap (decEntry t)

/-- Modelled from the spec: `extractAndCountKeywords` of
`src/helpers/util.ts`, which is not under `src/` (spec 4.1).  Absent or
empty text returns the existing map unchanged; otherwise each token of the
text is added to (or subtracted from) the map in sequence. -/
def extractAndCountKeywords (existing : Keywords) (text : Option String)
    (subtract : Bool) : Keywords :=
  match text with
  | none => existing
  | some t =>
    if t = "" then existing
    else (tokenize t).foldl
      (fun m tok => if subtract then decKey m tok else incKey m tok) existing

/-- Every count stored in the map is at least 1: the index invariant of
spec 3. -/
def goodMap (m : Keywords) : Prop := ∀ p ∈ m, 1 ≤ p.2

instance : DecidablePred goodMap := fun m =>
  inferInstanceAs (Decidable (∀ p ∈ m, 1 ≤ p.2))

/-- A finite sequence of keyword-extractor calls, applied in order: each
call supplies a text (possibly absent) and the subtract flag. -/
def runExtractCalls (m : Keywords) (calls : List (Option String × Bool)) : Keywords :=
  calls.foldl (fun acc c => extractAndCountKeywords acc c.1 c.2) m

/-- The caller identity: the only field this service reads is `id`
(`owner.id`). -/
structure User where
  id : Nat
deriving DecidableEq, Repr

/-- Restaurant entity (`src/restaurants/entities/restaurants.entity.ts`,
fields as used by the service). -/
structure Restaurant where
  id : Nat
  ownerId : Nat
  name : String
  description : Option String
  keywords : Keywords
deriving DecidableEq, Repr

/-- Dish entity (`src/restaurants/entities/dish.entity.ts`, fields as used
by the service). -/
structure Dish where
  id : Nat
  restaurantId : Nat
  name : String
  description : Option String
  price : Int
  photo : Option String
deriving DecidableEq, Repr

/-- The persistent state behind the two TypeORM repositories. -/
structure Store where
  restaurants : List Restaurant
  dishes : List Dish
deriving DecidableEq, Repr

/-- Error kinds of `src/helpers/http-codes.ts` (spec 7). -/
inductive ErrName where
  | badRequest
  | notFound
  | unauthorized
  | internalServerError
deriving DecidableEq, Repr

/-- The tagged success/failure result every operation returns
(`{ ok: true, ... }` versus `{ ok: false, error: { code, message } }`). -/
inductive OpResult (α : Type) where
  | ok (value : α)
  | err (code : ErrName) (message : Option String)
deriving DecidableEq, Repr

/-- The error code of a result, `none` on success. -/
def resultCode {α : Type} : OpResult α → Option ErrName
  | .ok _ => none
  | .err c _ => some c

/-- Modelled from the spec: `badRequestError()` of
`src/helpers/http-codes.ts` (not under `src/`) — a validation error. -/
def badRequestError {α : Type} : OpResult α := .err .badRequest none

/-- Modelled from the spec: `notFoundError(msg)` of
`src/helpers/http-codes.ts` (not under `src/`). -/
def notFoundError {α : Type} (msg : String) : OpResult α := .err .notFound (some msg)

/-- Modelled from the spec: `unauthorizedError(msg?)` of
`src/helpers/http-codes.ts` (not under `src/`). -/
def unauthorizedError {α : Type} (msg : Option String) : OpResult α :=
  .err .unauthorized msg

/-- Modelled from the spec: `internalServerError()` of
`src/helpers/http-codes.ts` (not under `src/`). -/
def internalServerError {α : Type} : OpResult α := .err .internalServerError none

/-- JavaScript falsiness of an optional numeric id (`!restaurantId`):
absent or zero. -/
def natFalsy : Option Nat → Bool
  | none => true
  | some n => n == 0

/-- JavaScript falsiness of an optional string (`!name`): absent or empty. -/
def strFalsy : Option String → Bool
  | none => true
  | some s => s == ""

/-- JavaScript falsiness of an optional number (`!price`): absent or zero. -/
def intFalsy : Option Int → Bool
  | none => true
  | some i => i == 0

/-- Modelled from the spec: the Catalog Store's find-by-id on the
restaurants repository (`restaurants.findOne(id)`): first record with the
given id, if any. -/
def findRestaurant (s : Store) (rid : Nat) : Option Restaurant :=
  s.restaurants.find? (fun r => r.id == rid)

/-- Modelled from the spec: `dishes.findOne(id)`. -/
def findDish (s : Store) (did : Nat) : Option Dish :=
  s.dishes.find? (fun d => d.id == did)

/-- The dishes relation of one restaurant (`relations: ['dishes']`). -/
def dishesOf (s : Store) (r : Restaurant) : List Dish :=
  s.dishes.filter (fun d => d.restaurantId == r.id)

/-- Modelled from the spec: `restaurants.save(r)` — update the row with
the same id, or insert. -/
def saveRestaurant (s : Store) (r : Restaurant) : Store :=
  if s.restaurants.any (fun x => x.id == r.id) then
    { s with restaurants := s.restaurants.map (fun x => if x.id = r.id then r else x) }
  else { s with restaurants := s.restaurants ++ [r] }

/-- Modelled from the spec: `dishes.save(d)` — update the row with the
same id, or insert. -/
def saveDish (s : Store) (d : Dish) : Store :=
  if s.dishes.any (fun x => x.id == d.id) then
    { s with dishes := s.dishes.map (fun x => if x.id = d.id then d else x) }
  else { s with dishes := s.dishes ++ [d] }

/-- Modelled from the spec: `dishes.delete({ id })`. -/
def removeDish (s : Store) (did : Nat) : Store :=
  { s with dishes := s.dishes.filter (fun d => !(d.id == did)) }

/-- A fresh dish id, standing for the id the database assigns on insert. -/
def nextDishId (s : Store) : Nat :=
  s.dishes.foldl (fun a d => max a d.id) 0 + 1

/-- A fresh restaurant id, standing for the id the database assigns on
insert. -/
def nextRestaurantId (s : Store) : Nat :=
  s.restaurants.foldl (fun a r => max a r.id) 0 + 1

/-- One persistence call, recorded in the order the service issues it. -/
inductive StoreEvent where
  | savedDish (d : Dish)
  | savedRestaurant (r : Restaurant)
  | deletedDish (id : Nat)
deriving DecidableEq, Repr

/-- `createRestaurant` (service lines 43-69): build the restaurant for the
caller, seed its keywords from `name` then `description`, persist it. -/
def createRestaurant (s : Store) (owner : User) (nm : String)
    (description : Option String) : OpResult Restaurant × Store × List StoreEvent :=
  let kw := extractAndCountKeywords
    (extractAndCountKeywords [] (some nm) false) description false
  let r : Restaurant :=
    { id := nextRestaurantId s, ownerId := owner.id, name := nm
      description := description, keywords := kw }
  (.ok r, saveRestaurant s r, [.savedRestaurant r])

/-- `AddDishInput` (`dtos/add-dish.dto.ts`): every field optional at the
transport layer; the service validates presence itself. -/
structure AddDishInput where
  restaurantId : Option Nat
  name : Option String
  description : Option String
  price : Option Int
  photo : Option String
deriving DecidableEq, Repr

/-- `addDish` (service lines 146-192).  Validation
(`!restaurantId || !name || !price`), then restaurant lookup, then the
ownership check; on success the dish is built, `name` and `description`
are added to the restaurant's keywords, and the dish then the restaurant
are saved.  (`restaurant.keywords || {}` of line 168 is the keywords field
itself here, since the model's keywords field is never null.) -/
def addDish (s : Store) (owner : User) (i : AddDishInput) :
    OpResult Dish × Store × List StoreEvent :=
  if natFalsy i.restaurantId || strFalsy i.name || intFalsy i.price then
    (badRequestError, s, [])
  else
    match findRestaurant s (i.restaurantId.getD 0) with
    | none => (notFoundError "Restaurant not found!", s, [])
    | some r =>
      if owner.id ≠ r.ownerId then (unauthorizedError none, s, [])
      else
        let d : Dish :=
          { id := nextDishId s, restaurantId := i.restaurantId.getD 0
            name := i.name.getD "", description := i.description
            price := i.price.getD 0, photo := i.photo }
        let kw := extractAndCountKeywords
          (extractAndCountKeywords r.keywords i.name false) i.description false
        let r2 := { r with keywords := kw }
        (.ok d, saveRestaurant (saveDish s d) r2, [.savedDish d, .savedRestaurant r2])

/-- `deleteDish` (service lines 194-227): find the dish, find its parent
restaurant (a missing parent makes `restaurant.ownerId` throw, caught as
an internal error), check ownership, subtract the dish's `name` then its
`description` from the keywords, save the restaurant, then delete the
dish row. -/
def deleteDish (s : Store) (owner : User) (did : Nat) :
    OpResult Dish × Store × List StoreEvent :=
  match findDish s did with
  | none => (notFoundError "Dish not found!", s, [])
  | some d =>
    match findRestaurant s d.restaurantId with
    | none => (internalServerError, s, [])
    | some r =>
      if r.ownerId ≠ owner.id then (unauthorizedError none, s, [])
      else
        let kw := extractAndCountKeywords
          (extractAndCountKeywords r.keywords (some d.name) true) d.description true
        let r2 := { r with keywords := kw }
        (.ok d, removeDish (saveRestaurant s r2) did, [.savedRestaurant r2, .deletedDish did])

/-- `getDishById` (service lines 229-248): find the dish, find its parent
restaurant (missing parent throws, caught as internal error), and report
an unauthorized error to a non-owner. -/
def getDishById (s : Store) (owner : User) (did : Nat) : OpResult Dish :=
  match findDish s did with
  | none => notFoundError "Dish not found"
  | some d =>
    match findRestaurant s d.restaurantId with
    | none => internalServerError
    | some r =>
      if r.ownerId ≠ owner.id then unauthorizedError (some "You can see this.")
      else .ok d

/-- `UpdateDishInput` (`dtos/update-dish.dto.ts`): the dish id plus
optional new field values. -/
structure UpdateDishInput where
  id : Nat
  name : Option String
  description : Option String
  price : Option Int
  photo : Option String
deriving DecidableEq, Repr

/-- `updateDish` (service lines 250-296): find the dish, find its parent
restaurant (missing parent throws, caught as internal error), check
ownership; a truthy new `name` replaces the old one in the keywords and on
the dish; a truthy new `description` likewise (subtracting the old one
only when the dish has one); a numeric `price` and a truthy `photo`
overwrite unconditionally.  Only the dish is saved: the restaurant object
with the reworked keywords is updated in memory and then dropped, exactly
as in the source, which never calls `restaurants.save` on this path. -/
def updateDish (s : Store) (owner : User) (i : UpdateDishInput) :
    OpResult Dish × Store × List StoreEvent :=
  match findDish s i.id with
  | none => (notFoundError "Dish not found!", s, [])
  | some d =>
    match findRestaurant s d.restaurantId with
    | none => (internalServerError, s, [])
    | some r =>
      if r.ownerId ≠ owner.id then (unauthorizedError none, s, [])
      else
        let kw1 :=
          if strFalsy i.name then r.keywords
          else extractAndCountKeywords
            (extractAndCountKeywords r.keywords (some d.name) true) i.name false
        let d1 := if strFalsy i.name then d else { d with name := i.name.getD d.name }
        let kw2 :=
          if strFalsy i.description then kw1
          else extractAndCountKeywords
            (if strFalsy d.description then kw1
             else extractAndCountKeywords kw1 d.description true)
            i.description false
        let d2 :=
          if strFalsy i.description then d1 else { d1 with description := i.description }
        let d3 := match i.price with
          | some p => { d2 with price := p }
          | none => d2
        let d4 := if strFalsy i.photo then d3 else { d3 with photo := i.photo }
        let _discardedKeywords := kw2
        (.ok d4, saveDish s d4, [.savedDish d4])

/-- The shared not-found message of `myRestaurant` (service line 95); the
source message spells "do not" as a contraction, written out here. -/
def myRestaurantNotFoundMsg : String :=
  "Restaurant not found or you do not have permission to view it."

/-- `myRestaurant` (service lines 90-144): reject a falsy id, look the
restaurant up, and collapse both "absent" and "present but not owned by
the caller" into the same not-found error; on success the result carries
the hard-coded `hasIncompleteOrders: true` flag, modelled as the Bool
component. -/
def myRestaurant (s : Store) (owner : User) (rid : Option Nat) :
    OpResult (Restaurant × Bool) :=
  if natFalsy rid then .err .badRequest (some "ID not provided")
  else
    match findRestaurant s (rid.getD 0) with
    | none => .err .notFound (some myRestaurantNotFoundMsg)
    | some r =>
      if r.ownerId ≠ owner.id then .err .notFound (some myRestaurantNotFoundMsg)
      else .ok (r, true)

/-- `browseRestaurantsInput` (`dtos/browse-restaurants.dto.ts`): optional
query, limit, offset. -/
structure BrowseInput where
  query : Option String
  limit : Option Int
  offset : Option Int
deriving DecidableEq, Repr

/-- `query.toLowerCase()`. -/
def toLowerStr (q : String) : String := String.mk (q.data.map Char.toLower)

/-- The `browseWhere` closure (service lines 305-319): when the query is
truthy and its keyword map is non-empty, one existence predicate per
distinct query token (`(keywords::jsonb->'word') is not null`), otherwise
an empty where-list. -/
def browseWhere (query : String) : List (Restaurant → Bool) :=
  let queryWords := extractAndCountKeywords [] (some query) false
  if query ≠ "" ∧ 0 < queryWords.length then
    queryWords.map (fun p => fun r => hasKey r.keywords p.1)
  else []

/-- Modelled from the spec: TypeORM's `find({ where, relations, skip,
take })` on the restaurants repository — an empty where-list matches
everything, a non-empty one is a disjunction; then skip/take pagination in
store order, each restaurant returned with its dishes. -/
def matchesWhere (whereOr : List (Restaurant → Bool)) (r : Restaurant) : Bool :=
  whereOr.isEmpty || whereOr.any (fun w => w r)

/-- Modelled from the spec: the paginated repository query issued by
`browseRestaurants` (service lines 321-326). -/
def restaurantsFind (s : Store) (whereOr : List (Restaurant → Bool))
    (skip tak : Nat) : List (Restaurant × List Dish) :=
  (((s.restaurants.filter (matchesWhere whereOr)).drop skip).take tak).map
    (fun r => (r, dishesOf s r))

/-- The set of restaurants passing the keyword filter of a browse query,
before pagination. -/
def browseCandidates (s : Store) (q0 : Option String) : List Restaurant :=
  s.restaurants.filter (matchesWhere (browseWhere (toLowerStr (q0.getD ""))))

/-- The page `browseRestaurants` returns: defaults `limit = 10`,
`offset = 0`; `skip = offset * limit` when `offset ≥ 0`, else `0`;
`take = limit`. -/
def browsePage (s : Store) (i : BrowseInput) : List (Restaurant × List Dish) :=
  let limit := i.limit.getD 10
  let offset := i.offset.getD 0
  let query := toLowerStr (i.query.getD "")
  let skip : Int := if 0 ≤ offset then offset * limit else 0
  restaurantsFind s (browseWhere query) skip.toNat limit.toNat

/-- `browseRestaurants` (service lines 298-332): run the paginated query
and wrap the page in a success result. -/
def browseRestaurants (s : Store) (i : BrowseInput) :
    OpResult (List (Restaurant × List Dish)) :=
  .ok (browsePage s i)

/-- Outcome of running a service method against a possibly faulting
storage layer: the method either returns a value or lets an exception
propagate to its caller. -/
inductive Outcome (α : Type) where
  | returned (value : α)
  | raised
deriving DecidableEq, Repr

/-- `browseRestaurants` run against a storage layer whose `find` call
faults when `findFault` is set.  The method body (service lines 298-332)
contains no try/catch, so a storage fault is not converted into a tagged
result: it propagates as a raised exception. -/
def browseRestaurantsRun (findFault : Bool) (s : Store) (i : BrowseInput) :
    Outcome (OpResult (List (Restaurant × List Dish))) :=
  if findFault then .raised else .returned (browseRestaurants s i)

/-- A concrete restaurant used by the concrete-input theorems: id 1,
owned by caller 1, with the keyword index seeded from its name
"Sushi House" and its one dish "Salmon Roll". -/
def sampleRest : Restaurant :=
  { id := 1, ownerId := 1, name := "Sushi House", description := none
    keywords := [("sushi", 1), ("house", 1), ("salmon", 1), ("roll", 1)] }

/-- The concrete dish of `sampleRest`. -/
def sampleDish : Dish :=
  { id := 1, restaurantId := 1, name := "Salmon Roll", description := none
    price := 12, photo := none }

/-- A concrete store holding `sampleRest` and `sampleDish`. -/
def sampleStore : Store :=
  { restaurants := [sampleRest], dishes := [sampleDish] }

/-! ## Sanity checks on the tokenizer and extractor -/

example : tokenize "Salmon, roll!" = ["salmon", "roll"] := by decide
example : tokenize "" = [] := by decide
example :
    extractAndCountKeywords [] (some "Sushi House") false =
      [("sushi", 1), ("house", 1)] := by decide
example :
    extractAndCountKeywords [("sushi", 1), ("house", 1)] (some "house") true =
      [("sushi", 1)] := by decide

/-! ## Keyword extractor lemmas -/

theorem goodMap_incKey (m : Keywords) (t : String) (h : goodMap m) :
    goodMap (incKey m t) := by
  intro p hp
  unfold incKey at hp
  by_cases hmem : hasKey m t
  · rw [if_pos hmem] at hp
    obtain ⟨q, hq, hfq⟩ := List.mem_map.1 hp
    subst hfq
    by_cases hqt : q.1 = t
    · rw [if_pos hqt]
      have := h q hq
      simp only []
      omega
    · rw [if_neg hqt]
      exact h q hq
  · rw [if_neg hmem] at hp
    rcases List.mem_append.1 hp with hq | hq
    · exact h p hq
    · simp only [List.mem_singleton] at hq
      subst hq
      norm_num

theorem goodMap_decKey (m : Keywords) (t : String) (h : goodMap m) :
    goodMap (decKey m t) := by
  intro p hp
  rcases List.mem_filterMap.1 hp with ⟨q, hq, hfq⟩
  unfold decEntry at hfq
  split at hfq
  · split at hfq
    · cases hfq
    · cases hfq
      have := h q hq
      omega
  · cases hfq
    exact h _ hq

theorem decEntry_bind_comm (sk tk : String) (p : String × Int) :
    (decEntry tk p).bind (decEntry sk) = (decEntry sk p).bind (decEntry tk) := by
  rcases p with ⟨k, v⟩
  by_cases hkt : k = tk
  · by_cases hks : k = sk
    · subst hkt
      subst hks
      rfl
    · subst hkt
      by_cases hv : v ≤ 1
      · simp [decEntry, hks, hv, show v - 1 ≤ 0 by omega]
      · simp [decEntry, hks, hv, show ¬(v - 1 ≤ 0) by omega]
  · by_cases hks : k = sk
    · subst hks
      by_cases hv : v ≤ 1
      · simp [decEntry, hkt, hv, show v - 1 ≤ 0 by omega]
      · simp [decEntry, hkt, hv, show ¬(v - 1 ≤ 0) by omega]
    · simp [decEntry, hkt, hks]

theorem decKey_decKey (m : Keywords) (sk tk : String) :
    decKey (decKey m tk) sk = decKey (decKey m sk) tk := by
  unfold decKey
  rw [List.filterMap_filterMap, List.filterMap_filterMap]
  exact congrArg (fun f => m.filterMap f) (funext fun p => decEntry_bind_comm sk tk p)

theorem foldl_decKey_decKey (ts : List String) :
    ∀ (m : Keywords) (tk : String),
      ts.foldl decKey (decKey m tk) = decKey (ts.foldl decKey m) tk := by
  induction ts with
  | nil => intro m tk; rfl
  | cons a ts ih =>
    intro m tk
    rw [List.foldl_cons, List.foldl_cons, decKey_decKey, ih]

theorem filterMap_some_of {α : Type} (f : α → Option α) :
    ∀ l : List α, (∀ a ∈ l, f a = some a) → l.filterMap f = l := by
  intro l
  induction l with
  | nil => intro _; rfl
  | cons a l ih =>
    intro h
    have h1 := h a (by simp)
    have h2 : l.filterMap f = l := ih fun x hx => h x (by simp [hx])
    simp [List.filterMap_cons, h1, h2]

theorem decKey_incKey_self (m : Keywords) (t : String)
    (h : ∀ p ∈ m, p.1 = t → 1 ≤ p.2) : decKey (incKey m t) t = m := by
  unfold incKey
  by_cases hmem : hasKey m t
  · rw [if_pos hmem]
    unfold decKey
    rw [List.filterMap_map]
    apply filterMap_some_of
    intro p hp
    by_cases hpt : p.1 = t
    · have hv := h p hp hpt
      have he : p.2 + 1 - 1 = p.2 := by omega
      simp [Function.comp, decEntry, hpt, he, show ¬(p.2 + 1 - 1 ≤ 0) by omega]
      exact ⟨by omega, by rw [← hpt]⟩
    · simp [Function.comp, decEntry, hpt]
  · rw [if_neg hmem]
    unfold decKey
    rw [List.filterMap_append]
    have hnone : ∀ p ∈ m, p.1 ≠ t := by
      intro p hp hpt
      have : hasKey m t = true := by
        unfold hasKey
        rw [List.any_eq_true]
        exact ⟨p, hp, by simp [hpt]⟩
      exact hmem this
    rw [filterMap_some_of _ m (fun p hp => by simp [decEntry, hnone p hp])]
    simp [decEntry]

theorem foldl_dec_foldl_inc (ts : List String) :
    ∀ m : Keywords, goodMap m → ts.foldl decKey (ts.foldl incKey m) = m := by
  induction ts with
  | nil => intro m _; rfl
  | cons t ts ih =>
    intro m hm
    rw [List.foldl_cons, List.foldl_cons, foldl_decKey_decKey,
      ih (incKey m t) (goodMap_incKey m t hm)]
    exact decKey_incKey_self m t (fun p hp _ => hm p hp)

theorem extract_false_eq_foldl (m : Keywords) (t : String) :
    extractAndCountKeywords m (some t) false = (tokenize t).foldl incKey m := by
  by_cases h : t = ""
  · subst h
    rfl
  · show (if t = "" then m else _) = _
    rw [if_neg h]
    rfl

theorem extract_true_eq_foldl (m : Keywords) (t : String) :
    extractAndCountKeywords m (some t) true = (tokenize t).foldl decKey m := by
  by_cases h : t = ""
  · subst h
    rfl
  · show (if t = "" then m else _) = _
    rw [if_neg h]
    rfl

theorem goodMap_extract (m : Keywords) (txt : Option String) (b : Bool)
    (h : goodMap m) : goodMap (extractAndCountKeywords m txt b) := by
  cases txt with
  | none => exact h
  | some s =>
    by_cases hs : s = ""
    · subst hs
      exact h
    · show goodMap (if s = "" then m else _)
      rw [if_neg hs]
      generalize tokenize s = ts
      induction ts generalizing m with
      | nil => exact h
      | cons a ts ih =>
        rw [List.foldl_cons]
        apply ih
        cases b
        · exact goodMap_incKey m a h
        · exact goodMap_decKey m a h

/-! ## C3: the extractor idempotent-inverse law -/

/-- C3, counterexample to the claim as stated: the law
`extract(extract(m, t, false), t, true) == m` does not hold for every
map `m`.  On `m = [("a", 0)]` (a key stored with count 0, representable in
`map<string,int>`) and `t = "a"`, the add puts the count at 1 and the
subtract then deletes the key, yielding the empty map, not `m`. -/
theorem c3_extract_inverse_cx :
    extractAndCountKeywords
        (extractAndCountKeywords [("a", 0)] (some "a") false) (some "a") true ≠
      [("a", 0)] := by decide

/-- C3, amended: for every map `m` whose stored counts are all ≥ 1 (any
map satisfying the index invariant, in particular the empty map) and every
text `t`, applying the extractor in add mode with `t` and then in subtract
mode with the same `t` restores exactly the original map. -/
theorem c3_extract_inverse_on_good_maps (m : Keywords) (t : Option String)
    (h : goodMap m) :
    extractAndCountKeywords (extractAndCountKeywords m t false) t true = m := by
  cases t with
  | none => rfl
  | some s =>
    rw [extract_false_eq_foldl, extract_true_eq_foldl]
    exact foldl_dec_foldl_inc (tokenize s) m h

/-- C3, witness: the amended law evaluated at a concrete good map and a
concrete two-word text. -/
theorem c3_extract_inverse_witness :
    goodMap [("sushi", 1), ("house", 1)] ∧
      extractAndCountKeywords
          (extractAndCountKeywords [("sushi", 1), ("house", 1)]
            (some "Salmon roll") false)
          (some "Salmon roll") true =
        [("sushi", 1), ("house", 1)] :=
  ⟨by decide, c3_extract_inverse_on_good_maps _ _ (by decide)⟩

/-! ## C4: counts stay ≥ 1 under any sequence of extractor calls -/

/-- C4: after any finite sequence of keyword-extractor calls starting from
a map whose values are all ≥ 1 (including the empty map), every value in
the resulting map is ≥ 1.  A key whose count would reach ≤ 0 is removed
entirely by `decKey` and is never stored with a zero or negative count —
which is exactly what `goodMap` of the result states. -/
theorem c4_counts_ge_one_invariant (m : Keywords)
    (calls : List (Option String × Bool)) (h : goodMap m) :
    ∀ p ∈ runExtractCalls m calls, 1 ≤ p.2 := by
  suffices hs : goodMap (runExtractCalls m calls) from hs
  induction calls generalizing m with
  | nil => exact h
  | cons c calls ih =>
    show goodMap (runExtractCalls (extractAndCountKeywords m c.1 c.2) calls)
    exact ih _ (goodMap_extract m c.1 c.2 h)

/-- C4, witness: a concrete sequence of calls — seed two texts, subtract
one of them — starting from the empty map. -/
theorem c4_counts_ge_one_witness :
    goodMap ([] : Keywords) ∧
      ∀ p ∈ runExtractCalls []
          [(some "Sushi House", false), (some "Salmon Roll", false),
           (some "salmon roll", true)], 1 ≤ p.2 :=
  ⟨by decide, c4_counts_ge_one_invariant _ _ (by decide)⟩

/-! ## Browse: keys of the query-word map are exactly the query tokens -/

theorem hasKey_incKey (m : Keywords) (t k : String) :
    hasKey (incKey m t) k = (hasKey m k || (k == t)) := by
  unfold incKey
  by_cases hmem : hasKey m t
  · rw [if_pos hmem]
    have hkeys :
        hasKey (m.map fun p => if p.1 = t then (p.1, p.2 + 1) else p) k =
          hasKey m k := by
      unfold hasKey
      rw [List.any_map]
      exact congrArg (fun f => m.any f)
        (funext fun q => by by_cases hq : q.1 = t <;> simp [Function.comp, hq])
    rw [hkeys]
    by_cases hkt : k = t
    · subst hkt
      simp [hmem]
    · have hb : (k == t) = false := by simp [hkt]
      rw [hb, Bool.or_false]
  · rw [if_neg hmem]
    unfold hasKey
    rw [List.any_append]
    have hsing : ([(t, (1 : Int))].any fun p => p.1 == k) = (t == k) := by simp
    rw [hsing]
    have hcomm : (t == k) = (k == t) := by
      by_cases hkt : k = t
      · subst hkt
        rfl
      · have h1 : (t == k) = false := by
          simp [show ¬t = k from fun e => hkt e.symm]
        have h2 : (k == t) = false := by simp [hkt]
        rw [h1, h2]
    rw [hcomm]

theorem hasKey_foldl_inc (ts : List String) :
    ∀ (m : Keywords) (k : String),
      hasKey (ts.foldl incKey m) k = (hasKey m k || ts.any (fun x => k == x)) := by
  induction ts with
  | nil => intro m k; simp
  | cons a ts ih =>
    intro m k
    rw [List.foldl_cons, ih, hasKey_incKey]
    simp [Bool.or_assoc]

theorem hasKey_queryWords (query k : String) :
    hasKey (extractAndCountKeywords [] (some query) false) k =
      (tokenize query).any (fun x => k == x) := by
  rw [extract_false_eq_foldl, hasKey_foldl_inc]
  simp [hasKey]

theorem hasKey_iff_exists (m : Keywords) (k : String) :
    hasKey m k = true ↔ ∃ p ∈ m, p.1 = k := by
  unfold hasKey
  rw [List.any_eq_true]
  constructor
  · rintro ⟨p, hp, hpk⟩
    exact ⟨p, hp, by simpa using hpk⟩
  · rintro ⟨p, hp, hpk⟩
    exact ⟨p, hp, by simp [hpk]⟩

theorem any_map_general {α β : Type} (l : List α) (f : α → β) (p : β → Bool) :
    (l.map f).any p = l.any fun a => p (f a) := by
  induction l with
  | nil => rfl
  | cons a l ih => simp [ih]

/-- The browse filter, characterized: with no tokens every restaurant
matches, otherwise a restaurant matches exactly when its keyword map has
at least one query token as a key. -/
theorem matchesWhere_browseWhere (query : String) (r : Restaurant) :
    matchesWhere (browseWhere query) r = true ↔
      (tokenize query = [] ∨ ∃ t ∈ tokenize query, hasKey r.keywords t = true) := by
  by_cases htoks : tokenize query = []
  · have hqw : extractAndCountKeywords [] (some query) false = [] := by
      rw [extract_false_eq_foldl, htoks]
      rfl
    simp only [browseWhere]
    rw [hqw]
    rw [if_neg (by simp)]
    simp [matchesWhere, htoks]
  · have hqne : query ≠ "" := fun he => htoks (by rw [he]; decide)
    obtain ⟨t0, ts0, hts⟩ : ∃ t0 ts0, tokenize query = t0 :: ts0 := by
      cases hcase : tokenize query with
      | nil => exact absurd hcase htoks
      | cons a l => exact ⟨a, l, rfl⟩
    simp only [browseWhere, matchesWhere]
    set qw := extractAndCountKeywords [] (some query) false with hqwdef
    have hqw0 : hasKey qw t0 = true := by
      rw [hqwdef, hasKey_queryWords, hts]
      simp
    obtain ⟨p0, qt, hqweq⟩ : ∃ p0 qt, qw = p0 :: qt := by
      cases hq2 : qw with
      | nil => rw [hq2] at hqw0; simp [hasKey] at hqw0
      | cons a l => exact ⟨a, l, rfl⟩
    have hlen : 0 < qw.length := by rw [hqweq]; simp
    rw [if_pos ⟨hqne, hlen⟩]
    have hie :
        (qw.map (fun p => fun rr : Restaurant => hasKey rr.keywords p.1)).isEmpty
          = false := by
      rw [hqweq]
      rfl
    rw [hie, Bool.false_or, any_map_general, List.any_eq_true]
    constructor
    · rintro ⟨p, hp, hpk⟩
      have h1 : hasKey qw p.1 = true := (hasKey_iff_exists qw p.1).2 ⟨p, hp, rfl⟩
      rw [hqwdef, hasKey_queryWords, List.any_eq_true] at h1
      obtain ⟨x, hx, hbeq⟩ := h1
      right
      refine ⟨x, hx, ?_⟩
      have hpx : p.1 = x := by simpa using hbeq
      rw [← hpx]
      exact hpk
    · rintro (he | ⟨t, ht, htk⟩)
      · exact absurd he htoks
      · have h1 : hasKey qw t = true := by
          rw [hqwdef, hasKey_queryWords, List.any_eq_true]
          exact ⟨t, ht, by simp⟩
        obtain ⟨p, hp, hpt⟩ := (hasKey_iff_exists qw t).1 h1
        refine ⟨p, hp, ?_⟩
        show hasKey r.keywords p.1 = true
        rw [hpt]
        exact htk

/-! ## C5: OR semantics of the browse keyword filter -/

/-- C5: with a non-empty tokenized query, a restaurant is in the candidate
set iff its keyword map contains at least one of the query tokens as a key
(OR semantics, counts never consulted — only `hasKey`); with an empty
token set every stored restaurant matches. -/
theorem c5_browse_or_semantics (s : Store) (q0 : Option String) (r : Restaurant) :
    r ∈ browseCandidates s q0 ↔
      r ∈ s.restaurants ∧
        (tokenize (toLowerStr (q0.getD "")) = [] ∨
          ∃ t ∈ tokenize (toLowerStr (q0.getD "")), hasKey r.keywords t = true) := by
  unfold browseCandidates
  rw [List.mem_filter]
  exact and_congr_right fun _ => matchesWhere_browseWhere (toLowerStr (q0.getD "")) r

/-! ## C6: pagination -/

/-- C6: the browse page is the candidate list after dropping
`skip = offset * limit` entries (when `offset ≥ 0`, else 0) and taking at
most `limit`; `limit`/`offset` default to 10/0 when absent; in particular
`limit = 1, offset = 2` returns at most one restaurant, skipping the
first two candidates. -/
theorem c6_browse_pagination (s : Store) (q0 : Option String) (lim off : Int) :
    browsePage s { query := q0, limit := some lim, offset := some off } =
        (((browseCandidates s q0).drop
            (if 0 ≤ off then (off * lim).toNat else 0)).take lim.toNat).map
          (fun r => (r, dishesOf s r))
      ∧ (browsePage s { query := q0, limit := some lim, offset := some off }).length
          ≤ lim.toNat
      ∧ browsePage s { query := q0, limit := none, offset := none } =
          browsePage s { query := q0, limit := some 10, offset := some 0 }
      ∧ (browsePage s { query := q0, limit := some 1, offset := some 2 }).length ≤ 1
      ∧ browsePage s { query := q0, limit := some 1, offset := some 2 } =
          (((browseCandidates s q0).drop 2).take 1).map (fun r => (r, dishesOf s r)) := by
  refine ⟨?_, ?_, ?_, ?_, ?_⟩
  · simp only [browsePage, restaurantsFind, browseCandidates, Option.getD]
    by_cases hoff : (0 : Int) ≤ off <;> simp [hoff]
  · simp only [browsePage, restaurantsFind, Option.getD, List.length_map,
      List.length_take]
    exact min_le_left _ _
  · rfl
  · simp only [browsePage, restaurantsFind, Option.getD, List.length_map,
      List.length_take]
    exact min_le_left _ _
  · rfl

/-! ## C1: updateDish never persists the parent restaurant -/

/-- C1, code-bug evidence: a successful `updateDish` that renames the only
dish of `sampleRest` from "Salmon Roll" to "tuna".  The run succeeds and
saves the dish, but the only persistence event is `savedDish`: the
restaurant list of the resulting store is untouched, so the persisted
keyword index still holds `salmon`/`roll` and never learns `tuna` — the
claim that both the dish and the restaurant's updated keyword map are
persisted fails on this input. -/
theorem c1_updateDish_does_not_persist_restaurant :
    updateDish sampleStore ⟨1⟩
        { id := 1, name := some "tuna", description := none, price := none
          photo := none } =
      (OpResult.ok { sampleDish with name := "tuna" },
        saveDish sampleStore { sampleDish with name := "tuna" },
        [StoreEvent.savedDish { sampleDish with name := "tuna" }]) ∧
    (saveDish sampleStore { sampleDish with name := "tuna" }).restaurants =
      [sampleRest] ∧
    sampleRest.keywords = [("sushi", 1), ("house", 1), ("salmon", 1), ("roll", 1)] := by
  decide

/-! ## C2: browseRestaurants and storage faults -/

/-- C2, counterexample to the claim as stated: at a concrete input with a
faulting storage layer, `browseRestaurants` raises (the method has no
try/catch) instead of returning the tagged internal-error result the
claim promises. -/
theorem c2_browse_fault_raises_cx :
    browseRestaurantsRun true sampleStore
        { query := some "salmon", limit := none, offset := none } =
      Outcome.raised ∧
    browseRestaurantsRun true sampleStore
        { query := some "salmon", limit := none, offset := none } ≠
      Outcome.returned internalServerError := by decide

/-- C2, amended: for every input, `browseRestaurants` returns a success
result containing the page of matching restaurants (each with its dishes);
it has no failure path of its own, but a storage-layer fault propagates as
a raised exception rather than being converted into a tagged
internal-error result. -/
theorem c2_browse_success_and_fault_behavior (s : Store) (i : BrowseInput) :
    browseRestaurantsRun false s i =
        Outcome.returned (OpResult.ok (browsePage s i)) ∧
      browseRestaurantsRun true s i = Outcome.raised :=
  ⟨rfl, rfl⟩

/-! ## C7: addDish validation rejects missing fields with no persistence -/

/-- C7: whenever `restaurantId`, `name`, or `price` is absent, `addDish`
returns a validation (bad-request) error, the store is returned unchanged,
and no persistence event is issued. -/
theorem c7_addDish_missing_field (s : Store) (o : User) (i : AddDishInput)
    (h : i.restaurantId = none ∨ i.name = none ∨ i.price = none) :
    addDish s o i = (badRequestError, s, []) := by
  have hc : (natFalsy i.restaurantId || strFalsy i.name || intFalsy i.price) = true := by
    rcases h with h | h | h <;> simp [h, natFalsy, strFalsy, intFalsy]
  unfold addDish
  rw [if_pos hc]

/-- C7, witness: `addDish` with `price` absent on the sample store. -/
theorem c7_addDish_missing_field_witness :
    (⟨some 1, some "Tuna Roll", none, none, none⟩ : AddDishInput).price = none ∧
      addDish sampleStore ⟨1⟩ ⟨some 1, some "Tuna Roll", none, none, none⟩ =
        (badRequestError, sampleStore, []) :=
  ⟨rfl, c7_addDish_missing_field _ _ _ (Or.inr (Or.inr rfl))⟩

/-! ## C8: addDish by a non-owner -/

/-- C8, counterexample to the claim as stated: a call in which the
restaurant exists and the caller (id 2) is not its owner (id 1), but
`name` is missing.  Validation runs first, so the call returns the
bad-request validation error, not an authorization error. -/
theorem c8_addDish_auth_cx :
    findRestaurant sampleStore 1 = some sampleRest ∧
    (2 : Nat) ≠ sampleRest.ownerId ∧
    resultCode (addDish sampleStore ⟨2⟩ ⟨some 1, none, none, some 5, none⟩).1 ≠
      some ErrName.unauthorized ∧
    (addDish sampleStore ⟨2⟩ ⟨some 1, none, none, some 5, none⟩).1 =
      (badRequestError : OpResult Dish) := by decide

/-- C8, amended: for every `addDish` call that passes input validation
(`restaurantId`, `name`, `price` all present and truthy) where the
restaurant exists and the caller's identity differs from its `ownerId`,
the operation returns an authorization error, the store is unchanged, and
no persistence event is issued. -/
theorem c8_addDish_auth_after_validation (s : Store) (o : User)
    (i : AddDishInput) (r : Restaurant)
    (h1 : natFalsy i.restaurantId = false) (h2 : strFalsy i.name = false)
    (h3 : intFalsy i.price = false)
    (h4 : findRestaurant s (i.restaurantId.getD 0) = some r)
    (h5 : o.id ≠ r.ownerId) :
    addDish s o i = (unauthorizedError none, s, []) := by
  have hc : (natFalsy i.restaurantId || strFalsy i.name || intFalsy i.price) = false := by
    rw [h1, h2, h3]
    rfl
  simp [addDish, hc, h4, h5]

/-- C8, witness: owner 1 owns the sample restaurant; caller 2 issues a
fully validated `addDish` and is rejected with an authorization error,
leaving the store untouched. -/
theorem c8_addDish_auth_witness :
    findRestaurant sampleStore 1 = some sampleRest ∧
      addDish sampleStore ⟨2⟩ ⟨some 1, some "Tuna Roll", none, some 5, none⟩ =
        (unauthorizedError none, sampleStore, []) :=
  ⟨by decide,
    c8_addDish_auth_after_validation _ _ _ sampleRest rfl rfl rfl (by decide) (by decide)⟩

/-! ## C9: deleteDish subtracts keywords and saves before deleting -/

/-- C9: in every successful `deleteDish` run, the restaurant saved to the
store carries the keywords with the dish's current `name` subtracted first
and its current `description` subtracted second, and the persistence trace
is exactly `[savedRestaurant, deletedDish]` — the restaurant save strictly
precedes the dish deletion. -/
theorem c9_deleteDish_order (s : Store) (o : User) (did : Nat) (d : Dish)
    (r : Restaurant)
    (h1 : findDish s did = some d)
    (h2 : findRestaurant s d.restaurantId = some r)
    (h3 : r.ownerId = o.id) :
    deleteDish s o did =
      (OpResult.ok d,
        removeDish
          (saveRestaurant s
            { r with keywords := (extractAndCountKeywords
                (extractAndCountKeywords r.keywords (some d.name) true)
                d.description true) }) did,
        [StoreEvent.savedRestaurant
          { r with keywords := (extractAndCountKeywords
              (extractAndCountKeywords r.keywords (some d.name) true)
              d.description true) },
          StoreEvent.deletedDish did]) := by
  simp [deleteDish, h1, h2, h3]

/-- C9, witness: owner 1 deletes the sample dish; the saved restaurant has
`salmon`/`roll` subtracted and the save precedes the delete. -/
theorem c9_deleteDish_order_witness :
    findDish sampleStore 1 = some sampleDish ∧
      deleteDish sampleStore ⟨1⟩ 1 =
        (OpResult.ok sampleDish,
          removeDish
            (saveRestaurant sampleStore
              { sampleRest with keywords := (extractAndCountKeywords
                  (extractAndCountKeywords sampleRest.keywords
                    (some sampleDish.name) true)
                  sampleDish.description true) }) 1,
          [StoreEvent.savedRestaurant
            { sampleRest with keywords := (extractAndCountKeywords
                (extractAndCountKeywords sampleRest.keywords
                  (some sampleDish.name) true)
                sampleDish.description true) },
            StoreEvent.deletedDish 1]) :=
  ⟨by decide,
    c9_deleteDish_order sampleStore ⟨1⟩ 1 sampleDish sampleRest (by decide) (by decide) rfl⟩

/-! ## C10: getDishById reports unauthorized where myRestaurant reports
not-found -/

/-- C10: when the dish exists but the caller is not the parent
restaurant's owner, `getDishById` returns an unauthorized error (with the
source's message), not a not-found error — so it confirms the dish's
existence to a non-owner — whereas `myRestaurant` on the same restaurant
and caller collapses the situation into its not-found error. -/
theorem c10_getDishById_unauthorized_vs_myRestaurant_notFound
    (s : Store) (o : User) (did : Nat) (d : Dish) (r : Restaurant)
    (h1 : findDish s did = some d)
    (h2 : findRestaurant s d.restaurantId = some r)
    (h3 : r.ownerId ≠ o.id)
    (h4 : d.restaurantId ≠ 0) :
    getDishById s o did = unauthorizedError (some "You can see this.") ∧
    resultCode (getDishById s o did) = some ErrName.unauthorized ∧
    some ErrName.unauthorized ≠ some ErrName.notFound ∧
    myRestaurant s o (some d.restaurantId) =
      OpResult.err ErrName.notFound (some myRestaurantNotFoundMsg) := by
  have hg : getDishById s o did = unauthorizedError (some "You can see this.") := by
    simp [getDishById, h1, h2, h3]
  refine ⟨hg, by rw [hg]; rfl, by decide, ?_⟩
  simp [myRestaurant, natFalsy, h4, h2, h3]

/-- C10, witness: caller 2 asks for dish 1 of the sample store (owned by
caller 1). -/
theorem c10_getDishById_witness :
    getDishById sampleStore ⟨2⟩ 1 = unauthorizedError (some "You can see this.") ∧
    resultCode (getDishById sampleStore ⟨2⟩ 1) = some ErrName.unauthorized ∧
    some ErrName.unauthorized ≠ some ErrName.notFound ∧
    myRestaurant sampleStore ⟨2⟩ (some sampleDish.restaurantId) =
      OpResult.err ErrName.notFound (some myRestaurantNotFoundMsg) :=
  c10_getDishById_unauthorized_vs_myRestaurant_notFound sampleStore ⟨2⟩ 1
    sampleDish sampleRest (by decide) (by decide) (by decide) (by decide)

end Foodie
